import Mathlib

/-!
Verification of the zfs-backup-restore engine against its specification.

The Python sources (`backup.py`, `restore.py`, `compression.py`, `config.py`)
are shallowly embedded below: pure data transformations become Lean
functions, the effectful parts (running `zfs destroy`, the backup pipeline)
are modelled by passing the outcome of each external command invocation as
an explicit argument and recording the side effects the code would perform
as an explicit event trace.
-/

/-! ### Datetime model

Python `datetime.datetime` values as used by the scripts: naive datetimes
with year, month, day, hour, minute, second and microsecond fields.
`config.py` fixes `TIMESTAMP_FORMAT = '%Y-%m-%d_%H-%M-%S'`. -/

structure Datetime where
  year : Nat
  month : Nat
  day : Nat
  hour : Nat
  minute : Nat
  second : Nat
  microsecond : Nat
deriving DecidableEq

/-- Field list of a datetime, in comparison order: Python compares
datetimes lexicographically by (year, month, day, hour, minute, second,
microsecond). -/
def Datetime.fieldList (d : Datetime) : List Nat :=
  [d.year, d.month, d.day, d.hour, d.minute, d.second, d.microsecond]

/-- Lexicographic strict comparison on field lists, mirroring Python tuple
comparison of datetime components. -/
def lexLt : List Nat → List Nat → Bool
  | [], [] => false
  | [], _ :: _ => true
  | _ :: _, [] => false
  | a :: as, b :: bs => if a < b then true else if b < a then false else lexLt as bs

/-- Non-strict lexicographic comparison: for Python's total order on
datetimes, `a <= b` is exactly `not (b < a)`. -/
def lexLe (as bs : List Nat) : Bool := ! lexLt bs as

/-- Python `a.timestamp < b.timestamp` on datetimes. -/
def Datetime.pyLt (a b : Datetime) : Prop := lexLt a.fieldList b.fieldList = true

/-- Python `a.timestamp <= b.timestamp` on datetimes. -/
def Datetime.pyLe (a b : Datetime) : Prop := lexLe a.fieldList b.fieldList = true

instance (a b : Datetime) : Decidable (Datetime.pyLt a b) :=
  inferInstanceAs (Decidable (_ = true))

instance (a b : Datetime) : Decidable (Datetime.pyLe a b) :=
  inferInstanceAs (Decidable (_ = true))

/-- Validity of a datetime value, exactly the bounds enforced by the
`datetime.datetime` constructor (MINYEAR = 1, MAXYEAR = 9999, real
day-in-month bound with leap years, microsecond below one million). -/
def isLeapYear (y : Nat) : Bool :=
  decide (y % 4 = 0) && (decide (y % 100 ≠ 0) || decide (y % 400 = 0))

/-- Number of days of a month, with the Gregorian leap-year rule. -/
def daysInMonth (y m : Nat) : Nat :=
  if m = 2 then (if isLeapYear y then 29 else 28)
  else if m = 4 ∨ m = 6 ∨ m = 9 ∨ m = 11 then 30
  else 31

/-- The bounds the `datetime.datetime(...)` constructor enforces; it raises
`ValueError` outside of them. -/
def validDatetime (d : Datetime) : Prop :=
  1 ≤ d.year ∧ d.year ≤ 9999 ∧ 1 ≤ d.month ∧ d.month ≤ 12 ∧
  1 ≤ d.day ∧ d.day ≤ daysInMonth d.year d.month ∧
  d.hour ≤ 23 ∧ d.minute ≤ 59 ∧ d.second ≤ 59 ∧ d.microsecond ≤ 999999

instance (d : Datetime) : Decidable (validDatetime d) := by
  unfold validDatetime; infer_instance

/-! ### strftime for the fixed format

`datetime.strftime('%Y-%m-%d_%H-%M-%S')` renders the six fields zero-padded
(`%Y` to four digits, the others to two); the microsecond field does not
appear in the format and is dropped. -/

/-- The character of a decimal digit. -/
def digitChar (n : Nat) : Char := Char.ofNat (48 + n)

/-- Zero-padded two-digit rendering. -/
def pad2 (n : Nat) : List Char := [digitChar (n / 10), digitChar (n % 10)]

/-- Zero-padded four-digit rendering, used for `%Y`. -/
def pad4 (n : Nat) : List Char :=
  [digitChar (n / 1000), digitChar (n / 100 % 10), digitChar (n / 10 % 10), digitChar (n % 10)]

/-- Model of `d.strftime('%Y-%m-%d_%H-%M-%S')` (config.py's
`TIMESTAMP_FORMAT`). -/
def strftime_ts (d : Datetime) : String :=
  String.mk (pad4 d.year ++ ('-' :: (pad2 d.month ++ ('-' :: (pad2 d.day ++
    ('_' :: (pad2 d.hour ++ ('-' :: (pad2 d.minute ++ ('-' :: pad2 d.second))))))))))

/-! ### strptime for the fixed format

CPython's `_strptime` compiles `'%Y-%m-%d_%H-%M-%S'` into the anchored
regular expression `(\d\d\d\d)-(1[0-2]|0[1-9]|[1-9])-...` and raises
`ValueError` when the string does not match in full or when the matched
numbers are rejected by the `datetime` constructor.  We model each
two-digit field by greedily consuming up to two digits and validating the
value afterwards; because every field is followed by a non-digit literal
(or the end of the string), this is extensionally equal to the regex with
its ordered alternation, and `%Y` consumes exactly four digits. -/

/-- Greedily take up to `n` leading decimal digits. -/
def takeDigits : Nat → List Char → List Char × List Char
  | 0, cs => ([], cs)
  | _ + 1, [] => ([], [])
  | n + 1, c :: cs =>
    if c.isDigit then
      let p := takeDigits n cs
      (c :: p.1, p.2)
    else ([], c :: cs)

/-- Numeric value of a digit string. -/
def digitsToNat (ds : List Char) : Nat :=
  ds.foldl (fun a c => a * 10 + (c.toNat - 48)) 0

/-- Parse exactly `n` digits (the `%Y` directive requires four). -/
def parseFixed (n : Nat) (cs : List Char) : Option (Nat × List Char) :=
  let p := takeDigits n cs
  if p.1.length = n then some (digitsToNat p.1, p.2) else none

/-- Parse one or two digits, greedily (the `%m %d %H %M %S` directives). -/
def parse12 (cs : List Char) : Option (Nat × List Char) :=
  let p := takeDigits 2 cs
  if 1 ≤ p.1.length then some (digitsToNat p.1, p.2) else none

/-- Consume one expected literal character of the format. -/
def expectChar (c : Char) : List Char → Option (List Char)
  | [] => none
  | x :: xs => if x = c then some xs else none

/-- The `datetime.datetime(y, mo, d, h, mi, s)` constructor: validates the
ranges and produces a datetime with microsecond 0, or fails. -/
def mkDatetime (y mo d h mi s : Nat) : Option Datetime :=
  if 1 ≤ y ∧ y ≤ 9999 ∧ 1 ≤ mo ∧ mo ≤ 12 ∧ 1 ≤ d ∧ d ≤ daysInMonth y mo ∧
      h ≤ 23 ∧ mi ≤ 59 ∧ s ≤ 59
  then some ⟨y, mo, d, h, mi, s, 0⟩ else none

/-- Model of `datetime.strptime(s, '%Y-%m-%d_%H-%M-%S')`: `none` where
Python raises `ValueError`. -/
def strptime_ts (s : String) : Option Datetime := do
  let cs := s.toList
  let (y, cs) ← parseFixed 4 cs
  let cs ← expectChar '-' cs
  let (mo, cs) ← parse12 cs
  let cs ← expectChar '-' cs
  let (d, cs) ← parse12 cs
  let cs ← expectChar '_' cs
  let (h, cs) ← parse12 cs
  let cs ← expectChar '-' cs
  let (mi, cs) ← parse12 cs
  let cs ← expectChar '-' cs
  let (sec, cs) ← parse12 cs
  if cs = [] then mkDatetime y mo d h mi sec else none

/-! ### Backup chain resolver (restore.py)

`find_backup_chain` receives the `rclone lsjson` listing as a list of
`RcloneFile` entries and the configuration's `zfs.dataset` and
`zfs.snapshot_prefix` values (passed here as the plain strings `ds` and
`pre`).  Its per-entry parsing loop (`continue` on every failure) is a
`filterMap`. -/

inductive BackupType where
  | FULL
  | INCREMENTAL
deriving DecidableEq

/-- An entry of the `rclone lsjson` listing (restore.py's `RcloneFile`
dataclass). -/
structure RcloneFile where
  Path : String
  Name : String
  Size : Int
  MimeType : String
  ModTime : String
  IsDir : Bool
deriving DecidableEq

/-- A parsed backup object (restore.py's `BackupInfo` dataclass). -/
structure BackupInfo where
  path : String
  snapshot_name : String
  timestamp : Datetime
  type : BackupType
  size : Int
deriving DecidableEq

/-- Splitting worker: scan `rest`, cutting at every occurrence of the
(non-empty) separator; `acc` holds the current piece reversed.  The fuel
starts at `rest.length + 1` and every recursive call consumes at least
one character, so the fuel never runs out. -/
def splitGo (sep : List Char) : Nat → List Char → List Char → List (List Char)
  | 0, rest, acc => [acc.reverse ++ rest]
  | fuel + 1, rest, acc =>
    match rest with
    | [] => [acc.reverse]
    | c :: cs =>
      if sep.isPrefixOf (c :: cs) then
        acc.reverse :: splitGo sep fuel ((c :: cs).drop sep.length) []
      else splitGo sep fuel cs (c :: acc)

/-- Python `s.split(sep)` for a given separator: cut `s` at every
non-overlapping occurrence of `sep`, scanning left to right.  Python
raises `ValueError` on an empty separator; the one call site wraps the
split in a `try` that skips the entry, which coincides with the `[s]`
returned here (the subsequent `[1]` lookup fails either way). -/
def pySplit (s sep : String) : List String :=
  if sep = "" then [s]
  else (splitGo sep.toList (s.toList.length + 1) s.toList []).map String.mk

/-- Python `BackupType(s)`: `ValueError` (modelled as `none`) unless `s` is
exactly one of the two enum values. -/
def parseBackupType (s : String) : Option BackupType :=
  if s = "full" then some BackupType.FULL
  else if s = "incremental" then some BackupType.INCREMENTAL
  else none

/-- Python `path.rsplit('-', 1)`: split at the last '-'; `none` when no
'-' occurs (the code then sees a one-element list and skips the entry). -/
def rsplitDash : List Char → Option (List Char × List Char)
  | [] => none
  | c :: cs =>
    match rsplitDash cs with
    | some (l, r) => some (c :: l, r)
    | none => if c = '-' then some ([], cs) else none

/-- The backup-type string of a path: the text between the last '-' and
the first '.' after it (`parts[1].split('.', 1)[0]` in the code). -/
def typeStrOf (path : String) : Option String :=
  (rsplitDash path.toList).map (fun p => String.mk (p.2.takeWhile (fun c => c ≠ '.')))

/-- The timestamp substring of a path: the part of `parts[0]` after the
first occurrence of the snapshot prefix
(`snapshot_name.split(prefix)[1]` in the code; an `IndexError` is
modelled as `none`). -/
def tsStrOf (pre path : String) : Option String :=
  (rsplitDash path.toList).bind (fun p => (pySplit (String.mk p.1) pre).get? 1)

/-- An entry whose extracted backup-type string is not exactly `full` or
`incremental` (including entries where no type string can be extracted at
all). -/
def suffixBad (path : String) : Bool :=
  match typeStrOf path with
  | none => true
  | some t => decide (t ≠ "full") && decide (t ≠ "incremental")

/-- An entry whose embedded timestamp fails to parse in the fixed format
(including entries where no timestamp substring can be extracted). -/
def tsBad (pre path : String) : Bool :=
  match tsStrOf pre path with
  | none => true
  | some ts => (strptime_ts ts).isNone

/-- One iteration of the parsing loop of `find_backup_chain`
(restore.py lines 74-107): prefix check, `rsplit('-', 1)`, backup-type
extraction (`typeStrOf`) and parse, timestamp extraction (`tsStrOf`) and
parse; every failure skips the entry (`continue`).  The two extraction
helpers re-run the `rsplit` they branch on, so inside the `some (l, _)`
arm they compute exactly the code's `parts[1].split('.', 1)[0]` and
`parts[0].split(prefix)[1]`. -/
def parseEntry (ds pre : String) (b : RcloneFile) : Option BackupInfo :=
  if (ds ++ "@" ++ pre).toList.isPrefixOf b.Path.toList then
    match rsplitDash b.Path.toList with
    | none => none
    | some (l, _) =>
      match typeStrOf b.Path with
      | none => none
      | some t =>
        match parseBackupType t with
        | none => none
        | some ty =>
          match tsStrOf pre b.Path with
          | none => none
          | some tsStr =>
            match strptime_ts tsStr with
            | none => none
            | some ts => some ⟨b.Path, String.mk l, ts, ty, b.Size⟩
  else none

/-- The `dataset_backups` list accumulated by the parsing loop. -/
def parsedRecords (backups : List RcloneFile) (ds pre : String) : List BackupInfo :=
  backups.filterMap (parseEntry ds pre)

/-- The sort relation of `dataset_backups.sort(key=lambda x: x.timestamp)`:
Python's stable sort by the datetime key. -/
def bleR (a b : BackupInfo) : Prop := Datetime.pyLe a.timestamp b.timestamp

instance : DecidableRel bleR := fun a b =>
  inferInstanceAs (Decidable (Datetime.pyLe a.timestamp b.timestamp))

/-- Test used when scanning for the last full backup. -/
def isFullRec (b : BackupInfo) : Bool := b.type = BackupType.FULL

/-- Model of restore.py's `find_backup_chain` (lines 71-131): parse all
entries, sort ascending by timestamp, scan from the latest backward for
the most recent full record, then keep the incrementals strictly after
it. -/
def find_backup_chain (backups : List RcloneFile) (ds pre : String) :
    Option BackupInfo × List BackupInfo :=
  let dataset_backups := parsedRecords backups ds pre
  if dataset_backups.isEmpty then (none, [])
  else
    let sorted := List.insertionSort bleR dataset_backups
    match sorted.reverse.find? isFullRec with
    | none => (none, [])
    | some last_full =>
      (some last_full,
        sorted.filter (fun b =>
          decide (b.type = BackupType.INCREMENTAL) &&
          lexLt last_full.timestamp.fieldList b.timestamp.fieldList))

/-! ### Snapshot lifecycle (backup.py)

`destroy_snapshot` runs `zfs destroy` up to five times, retrying after a
two-second sleep only when stderr reports a busy dataset, and swallows
every failure (the `except` clause catches each `CalledProcessError`, so
the function always returns; nothing re-raises).  We pass the outcome of
the i-th `subprocess.run` as `run i` — `none` for exit status 0, `some e`
for a `CalledProcessError` whose decoded and stripped stderr is `e` — and
record the externally visible behaviour as an event trace. -/

inductive DEvent where
  | attempt (i : Nat)
  | sleep (secs : Nat)
  | log (msg : String)
deriving DecidableEq

/-- Python `'dataset is busy' in stderr_output`. -/
def containsBusy (s : String) : Bool := decide ((pySplit s "dataset is busy").length ≠ 1)

/-- Event classifiers used to state properties of traces. -/
def isAttemptEv : DEvent → Bool
  | DEvent.attempt _ => true
  | _ => false

def isAttemptOrSleepEv : DEvent → Bool
  | DEvent.attempt _ => true
  | DEvent.sleep _ => true
  | _ => false

/-- The retry loop `for attempt in range(retries)` of `destroy_snapshot`
(backup.py lines 81-97), iterating over the list of remaining attempt
indices.  The code's test `attempt < retries - 1` holds exactly when the
current iteration is not the last one, i.e. when `rest` is nonempty. -/
def destroyLoop (run : Nat → Option String) (silent : Bool) (delay : Nat) :
    List Nat → List DEvent
  | [] => []
  | i :: rest =>
    match run i with
    | none =>
      DEvent.attempt i :: (if silent then [] else [DEvent.log "destroyed"])
    | some err =>
      if containsBusy err = true ∧ rest ≠ [] then
        DEvent.attempt i ::
          ((if silent then [] else [DEvent.log "busy, retrying"]) ++
            DEvent.sleep delay :: destroyLoop run silent delay rest)
      else
        DEvent.attempt i :: (if silent then [] else [DEvent.log ("failed: " ++ err)])

/-- Model of backup.py's `destroy_snapshot` (lines 70-97).  The snapshot
name is `none` for Python `None`; `if not snapshot_name` is true for
`None` and for the empty string.  `retries = 5`, `delay = 2`; every
`CalledProcessError` is caught inside the loop, so the function always
returns its trace normally — there is no exceptional result. -/
def destroy_snapshot (run : Nat → Option String) (snapshot_name : Option String)
    (silent : Bool) : List DEvent :=
  match snapshot_name with
  | none => []
  | some n =>
    if n = "" then []
    else
      (if silent then [] else [DEvent.log ("Destroying snapshot: " ++ n)]) ++
        destroyLoop run silent 2 (List.range 5)

/-- Model of backup.py's `prune_snapshots` (lines 54-67), parametrised by
the ordered (oldest-first) snapshot list that `get_snapshots` returned.
The result is the list of snapshots passed to `destroy_snapshot`, in
order. -/
def prune_snapshots (retention : Int) (snapshots : List String) : List String :=
  if retention ≤ 0 then []
  else if retention < (snapshots.length : Int) then
    snapshots.take (snapshots.length - retention.toNat)
  else []

/-! ### Backup run (backup.py main, non-interrupted path)

The observable actions of one backup run after the configuration is
loaded: snapshot creation, the pipeline invocation (full or incremental),
and — depending on the pipeline's exit status `rc` — either pruning or
destruction of the just-created snapshot (backup.py lines 118-139). -/

inductive PipeKind where
  | full
  | incremental
deriving DecidableEq

inductive BAction where
  | createSnap (name : String)
  | runPipe (kind : PipeKind) (name : String)
  | pruneSnaps
  | destroySnap (name : String)
deriving DecidableEq

/-- The action trace of backup.py's `main` on the non-interrupted path:
`snapshots` is the ordered listing, `forceFull` the `--full` flag, `ds`
and `pre` the dataset and snapshot prefix, `ts` the formatted timestamp
and `rc` the pipeline's exit status. -/
def main_run (snapshots : List String) (forceFull : Bool) (ds pre ts : String)
    (rc : Int) : List BAction :=
  let latest0 := snapshots.getLast?
  let latest := if forceFull then none else latest0
  let new_snapshot := ds ++ "@" ++ pre ++ ts
  let kind := match latest with
    | some _ => PipeKind.incremental
    | none => PipeKind.full
  [BAction.createSnap new_snapshot, BAction.runPipe kind new_snapshot] ++
    (if rc = 0 then [BAction.pruneSnaps] else [BAction.destroySnap new_snapshot])

/-! ### Compressor registry (compression.py) -/

structure Compressor where
  name : String
  compress_cmd : String
  decompress_cmd : String
  extension : String
deriving DecidableEq

def gzipCompressor : Compressor := ⟨"gzip", "gzip -c", "gzip -d", "gz"⟩

def pigzCompressor : Compressor := ⟨"pigz", "pigz -c", "pigz -d", "gz"⟩

def zstdCompressor : Compressor := ⟨"zstd", "zstd -T0", "zstd -d", "zst"⟩

def COMPRESSORS : List Compressor := [gzipCompressor, pigzCompressor, zstdCompressor]

def DEFAULT_COMPRESSOR : String := "pigz"

/-- One step of a Python dict comprehension: an existing key keeps its
position but its value is overwritten; a new key is appended. -/
def dictUpdate (d : List (String × Compressor)) (k : String) (v : Compressor) :
    List (String × Compressor) :=
  if d.any (fun p => p.1 = k) then d.map (fun p => if p.1 = k then (k, v) else p)
  else d ++ [(k, v)]

/-- compression.py's `_by_extension = {c.extension: c for c in COMPRESSORS}`
as an insertion-ordered association list. -/
def byExtension : List (String × Compressor) :=
  COMPRESSORS.foldl (fun d c => dictUpdate d c.extension c) []

/-- Model of `get_compressor_by_filename`: iterate the dict in insertion
order and return the first compressor such that Python
`filename.endswith('.' + extension)` holds. -/
def get_compressor_by_filename (filename : String) : Option Compressor :=
  (byExtension.find? (fun p => ("." ++ p.1).toList.isSuffixOf filename.toList)).map Prod.snd

/-! ### Concrete listings used to instantiate the theorems

The first listing is the spec's chain-resolution example
`{A@bk...-incremental.gz (t=2), A@bk...-full.gz (t=1), A@bk...-full.zst (t=3)}`,
made concrete with parseable timestamps at seconds 2, 1 and 3; the second
is the spec's `{full@t=1, incremental@t=2, incremental@t=3}` example. -/

def exC1inc2 : RcloneFile :=
  ⟨"A@bk2024-01-01_00-00-02-incremental.gz", "A@bk2024-01-01_00-00-02-incremental.gz",
    20, "application/octet-stream", "2024-01-01T00:00:02Z", false⟩

def exC1full1 : RcloneFile :=
  ⟨"A@bk2024-01-01_00-00-01-full.gz", "A@bk2024-01-01_00-00-01-full.gz",
    10, "application/octet-stream", "2024-01-01T00:00:01Z", false⟩

def exC1full3 : RcloneFile :=
  ⟨"A@bk2024-01-01_00-00-03-full.zst", "A@bk2024-01-01_00-00-03-full.zst",
    30, "application/octet-stream", "2024-01-01T00:00:03Z", false⟩

def exC1list : List RcloneFile := [exC1inc2, exC1full1, exC1full3]

/-- The parsed record of the t=3 full backup of the first example. -/
def exC1full3Info : BackupInfo :=
  ⟨"A@bk2024-01-01_00-00-03-full.zst", "A@bk2024-01-01_00-00-03",
    ⟨2024, 1, 1, 0, 0, 3, 0⟩, BackupType.FULL, 30⟩

def exC2full1 : RcloneFile :=
  ⟨"B@bk2023-05-05_10-00-01-full.gz", "B@bk2023-05-05_10-00-01-full.gz",
    100, "application/octet-stream", "2023-05-05T10:00:01Z", false⟩

def exC2inc2 : RcloneFile :=
  ⟨"B@bk2023-05-05_10-00-02-incremental.gz", "B@bk2023-05-05_10-00-02-incremental.gz",
    5, "application/octet-stream", "2023-05-05T10:00:02Z", false⟩

def exC2inc3 : RcloneFile :=
  ⟨"B@bk2023-05-05_10-00-03-incremental.gz", "B@bk2023-05-05_10-00-03-incremental.gz",
    6, "application/octet-stream", "2023-05-05T10:00:03Z", false⟩

def exC2list : List RcloneFile := [exC2full1, exC2inc2, exC2inc3]

/-- The parsed records of the second example. -/
def exC2full1Info : BackupInfo :=
  ⟨"B@bk2023-05-05_10-00-01-full.gz", "B@bk2023-05-05_10-00-01",
    ⟨2023, 5, 5, 10, 0, 1, 0⟩, BackupType.FULL, 100⟩

def exC2inc2Info : BackupInfo :=
  ⟨"B@bk2023-05-05_10-00-02-incremental.gz", "B@bk2023-05-05_10-00-02",
    ⟨2023, 5, 5, 10, 0, 2, 0⟩, BackupType.INCREMENTAL, 5⟩

def exC2inc3Info : BackupInfo :=
  ⟨"B@bk2023-05-05_10-00-03-incremental.gz", "B@bk2023-05-05_10-00-03",
    ⟨2023, 5, 5, 10, 0, 3, 0⟩, BackupType.INCREMENTAL, 6⟩

/-- A malformed entry: its suffix `garbage` is neither `full` nor
`incremental`. -/
def exC6bad : RcloneFile :=
  ⟨"A@bk2024-01-01_00-00-05-garbage.gz", "A@bk2024-01-01_00-00-05-garbage.gz",
    7, "application/octet-stream", "2024-01-01T00:00:05Z", false⟩

/-- A well-formed full-backup entry used alongside the malformed one. -/
def exC6good : RcloneFile :=
  ⟨"A@bk2024-02-02_00-00-01-full.gz", "A@bk2024-02-02_00-00-01-full.gz",
    11, "application/octet-stream", "2024-02-02T00:00:01Z", false⟩

/-- An incremental-only entry for the no-full-backup scenario. -/
def exC7inc : RcloneFile :=
  ⟨"A@bk2024-03-03_00-00-01-incremental.gz", "A@bk2024-03-03_00-00-01-incremental.gz",
    9, "application/octet-stream", "2024-03-03T00:00:01Z", false⟩

/-! ## Properties of the lexicographic datetime order -/

theorem lexLt_irrefl : ∀ as : List Nat, lexLt as as = false := by
  intro as
  induction as with
  | nil => rfl
  | cons a as ih => simp [lexLt, ih]

theorem lexLt_asymm : ∀ as bs : List Nat, lexLt as bs = true → lexLt bs as = false := by
  intro as
  induction as with
  | nil =>
    intro bs h
    cases bs with
    | nil => simp [lexLt] at h
    | cons b bs => rfl
  | cons a as ih =>
    intro bs h
    cases bs with
    | nil => simp [lexLt] at h
    | cons b bs =>
      simp only [lexLt] at h ⊢
      rcases Nat.lt_trichotomy a b with hab | hab | hab
      · simp [hab, Nat.not_lt.mpr (Nat.le_of_lt hab), Nat.lt_irrefl]
      · subst hab
        simp only [Nat.lt_irrefl, if_false] at h ⊢
        exact ih bs h
      · simp [hab, Nat.not_lt.mpr (Nat.le_of_lt hab)] at h

theorem lexLt_trans :
    ∀ as bs cs : List Nat, lexLt as bs = true → lexLt bs cs = true → lexLt as cs = true := by
  intro as
  induction as with
  | nil =>
    intro bs cs h1 h2
    cases bs with
    | nil => simp [lexLt] at h1
    | cons b bs =>
      cases cs with
      | nil => simp [lexLt] at h2
      | cons c cs => rfl
  | cons a as ih =>
    intro bs cs h1 h2
    cases bs with
    | nil => simp [lexLt] at h1
    | cons b bs =>
      cases cs with
      | nil => simp [lexLt] at h2
      | cons c cs =>
        simp only [lexLt] at h1 h2 ⊢
        rcases Nat.lt_trichotomy a b with hab | hab | hab
        · rcases Nat.lt_trichotomy b c with hbc | hbc | hbc
          · have : a < c := Nat.lt_trans hab hbc
            simp [this]
          · subst hbc
            simp [hab]
          · simp [hbc, Nat.not_lt.mpr (Nat.le_of_lt hbc)] at h2
        · subst hab
          simp only [Nat.lt_irrefl, if_false] at h1
          rcases Nat.lt_trichotomy a c with hac | hac | hac
          · simp [hac]
          · subst hac
            simp only [Nat.lt_irrefl, if_false] at h2 ⊢
            exact ih bs cs h1 h2
          · simp [hac, Nat.not_lt.mpr (Nat.le_of_lt hac)] at h2
        · simp [hab, Nat.not_lt.mpr (Nat.le_of_lt hab)] at h1

theorem lexLt_connex :
    ∀ as bs : List Nat, lexLt as bs = false → lexLt bs as = false → as = bs := by
  intro as
  induction as with
  | nil =>
    intro bs h1 _
    cases bs with
    | nil => rfl
    | cons b bs => simp [lexLt] at h1
  | cons a as ih =>
    intro bs h1 h2
    cases bs with
    | nil => simp [lexLt] at h2
    | cons b bs =>
      simp only [lexLt] at h1 h2
      rcases Nat.lt_trichotomy a b with hab | hab | hab
      · simp [hab] at h1
      · subst hab
        simp only [Nat.lt_irrefl, if_false] at h1 h2
        rw [ih bs h1 h2]
      · simp [hab, Nat.not_lt.mpr (Nat.le_of_lt hab)] at h2

theorem pyLe_refl (d : Datetime) : Datetime.pyLe d d := by
  simp [Datetime.pyLe, lexLe, lexLt_irrefl]

theorem bleR_total : ∀ a b : BackupInfo, bleR a b ∨ bleR b a := by
  intro a b
  simp only [bleR, Datetime.pyLe, lexLe, Bool.not_eq_true', Bool.not_eq_true]
  cases h : lexLt b.timestamp.fieldList a.timestamp.fieldList with
  | false => exact Or.inl rfl
  | true => exact Or.inr (lexLt_asymm _ _ h)

theorem bleR_trans : ∀ a b c : BackupInfo, bleR a b → bleR b c → bleR a c := by
  intro a b c h1 h2
  simp only [bleR, Datetime.pyLe, lexLe, Bool.not_eq_true', Bool.not_eq_true] at h1 h2 ⊢
  by_contra hca
  rw [Bool.not_eq_false] at hca
  rcases hfb : lexLt a.timestamp.fieldList b.timestamp.fieldList with _ | _
  · have heq := lexLt_connex _ _ hfb h1
    rw [heq] at hca
    rw [hca] at h2
    simp at h2
  · have htr := lexLt_trans _ _ _ hca hfb
    rw [htr] at h2
    simp at h2

/-- The sorted output of the stable timestamp sort is `Sorted` for the
Python `<=` relation on timestamps. -/
theorem sorted_sortRecs (l : List BackupInfo) :
    List.Sorted bleR (List.insertionSort bleR l) := by
  haveI : IsTotal BackupInfo bleR := ⟨bleR_total⟩
  haveI : IsTrans BackupInfo bleR := ⟨bleR_trans⟩
  exact List.sorted_insertionSort bleR l

/-- Decomposition of a successful `find?`: the list splits around the
found element, with every earlier element failing the test. -/
theorem find?_decomp {α : Type} (p : α → Bool) :
    ∀ {l : List α} {a : α}, l.find? p = some a →
      ∃ l1 l2, l = l1 ++ a :: l2 ∧ (∀ x ∈ l1, p x = false) ∧ p a = true := by
  intro l
  induction l with
  | nil => intro a h; simp [List.find?] at h
  | cons x xs ih =>
    intro a h
    cases hpx : p x with
    | true =>
      rw [List.find?_cons_of_pos _ hpx] at h
      obtain rfl : x = a := by injection h
      exact ⟨[], xs, rfl, by simp, hpx⟩
    | false =>
      rw [List.find?_cons_of_neg _ (by simp [hpx])] at h
      obtain ⟨l1, l2, rfl, hl1, hpa⟩ := ih h
      exact ⟨x :: l1, l2, rfl, by
        intro y hy
        rcases List.mem_cons.mp hy with rfl | hy
        · exact hpx
        · exact hl1 y hy, hpa⟩

/-! ## Claims about the backup chain resolver -/

/-- C1: whenever some listing entry parses as a full record,
`find_backup_chain` returns a full record that is itself parsed from the
listing and has the greatest timestamp among all parsed full records, and
no returned incremental has a timestamp less than or equal to the chosen
full's; on the spec's example listing (incremental at t=2, full at t=1,
full at t=3) it returns the t=3 full and no incrementals. -/
theorem chain_full_is_latest :
    (∀ (backups : List RcloneFile) (ds pre : String),
      (∃ b ∈ backups, ∃ r, parseEntry ds pre b = some r ∧ r.type = BackupType.FULL) →
      ∃ f incs, find_backup_chain backups ds pre = (some f, incs) ∧
        (∃ b ∈ backups, parseEntry ds pre b = some f) ∧
        f.type = BackupType.FULL ∧
        (∀ r, (∃ b ∈ backups, parseEntry ds pre b = some r) → r.type = BackupType.FULL →
          Datetime.pyLe r.timestamp f.timestamp) ∧
        (∀ r ∈ incs, ¬ Datetime.pyLe r.timestamp f.timestamp)) ∧
    find_backup_chain exC1list "A" "bk" = (some exC1full3Info, []) := by
  constructor
  · intro backups ds pre h
    obtain ⟨b, hb, r, hpr, hty⟩ := h
    have hrmem : r ∈ parsedRecords backups ds pre :=
      List.mem_filterMap.mpr ⟨b, hb, hpr⟩
    have hne : (parsedRecords backups ds pre).isEmpty = false := by
      rcases hrecs : parsedRecords backups ds pre with _ | _
      · rw [hrecs] at hrmem; simp at hrmem
      · rfl
    have hsorted := sorted_sortRecs (parsedRecords backups ds pre)
    set sorted := List.insertionSort bleR (parsedRecords backups ds pre) with hsortedDef
    have hrs : r ∈ sorted.reverse := by
      rw [List.mem_reverse]
      exact (List.mem_insertionSort bleR).mpr hrmem
    cases hfind : sorted.reverse.find? isFullRec with
    | none =>
      exfalso
      have := List.find?_eq_none.mp hfind r hrs
      simp [isFullRec, hty] at this
    | some f =>
      have hresult : find_backup_chain backups ds pre =
          (some f, sorted.filter (fun b =>
            decide (b.type = BackupType.INCREMENTAL) &&
            lexLt f.timestamp.fieldList b.timestamp.fieldList)) := by
        unfold find_backup_chain
        simp only [hne, Bool.false_eq_true, if_false, ← hsortedDef, hfind]
      refine ⟨f, _, hresult, ?_, ?_, ?_, ?_⟩
      · have : f ∈ sorted.reverse := List.mem_of_find?_eq_some hfind
        rw [List.mem_reverse] at this
        have hf : f ∈ parsedRecords backups ds pre := (List.mem_insertionSort bleR).mp this
        exact List.mem_filterMap.mp hf
      · have := List.find?_some hfind
        simpa [isFullRec] using this
      · intro r' hr' hr'full
        obtain ⟨l1, l2, hsplit, hl1, _⟩ := find?_decomp isFullRec hfind
        have hr'rev : r' ∈ sorted.reverse := by
          rw [List.mem_reverse]
          exact (List.mem_insertionSort bleR).mpr
            (List.mem_filterMap.mpr (by obtain ⟨b', hb', hpb'⟩ := hr'; exact ⟨b', hb', hpb'⟩))
        rw [hsplit] at hr'rev
        rcases List.mem_append.mp hr'rev with hmem | hmem
        · exfalso
          have := hl1 r' hmem
          simp [isFullRec, hr'full] at this
        · rcases List.mem_cons.mp hmem with rfl | hmem
          · exact pyLe_refl _
          · have hpw : sorted.reverse.Pairwise (fun a b => bleR b a) :=
              List.pairwise_reverse.mpr hsorted
            rw [hsplit] at hpw
            have := (List.pairwise_append.mp hpw).2.1
            have hrel := (List.pairwise_cons.mp this).1 r' hmem
            exact hrel
      · intro r' hr'
        intro hle
        have hmf := List.mem_filter.mp hr'
        have hmf2 := hmf.2
        simp only [Bool.and_eq_true, decide_eq_true_eq] at hmf2
        have hlt := hmf2.2
        simp only [Datetime.pyLe, lexLe] at hle
        rw [hlt] at hle
        simp at hle
  · decide

/-- Witness for C1: the general statement applied to the example listing,
with the existence of a parsed full record discharged concretely. -/
theorem chain_full_is_latest_witness :
    ∃ f incs, find_backup_chain exC1list "A" "bk" = (some f, incs) ∧
      (∃ b ∈ exC1list, parseEntry "A" "bk" b = some f) ∧
      f.type = BackupType.FULL ∧
      (∀ r, (∃ b ∈ exC1list, parseEntry "A" "bk" b = some r) → r.type = BackupType.FULL →
        Datetime.pyLe r.timestamp f.timestamp) ∧
      (∀ r ∈ incs, ¬ Datetime.pyLe r.timestamp f.timestamp) :=
  chain_full_is_latest.1 exC1list "A" "bk"
    ⟨exC1full3, by decide, exC1full3Info, by decide, by decide⟩

/-- C2: whenever `find_backup_chain` returns a chosen full record, the
returned incrementals are exactly (as a multiset) the parsed records of
type incremental with timestamp strictly greater than the chosen full's,
and they are in ascending timestamp order; on the spec's example
(full at t=1, incrementals at t=2 and t=3) it returns the full and both
incrementals in ascending order. -/
theorem chain_incrementals_sorted :
    (∀ (backups : List RcloneFile) (ds pre : String) (f : BackupInfo)
      (incs : List BackupInfo),
      find_backup_chain backups ds pre = (some f, incs) →
      incs.Perm ((parsedRecords backups ds pre).filter
        (fun b => decide (b.type = BackupType.INCREMENTAL ∧
          Datetime.pyLt f.timestamp b.timestamp))) ∧
      incs.Pairwise (fun a b => Datetime.pyLe a.timestamp b.timestamp)) ∧
    find_backup_chain exC2list "B" "bk" = (some exC2full1Info, [exC2inc2Info, exC2inc3Info]) := by
  constructor
  · intro backups ds pre f incs h
    simp only [find_backup_chain] at h
    split at h
    · simp at h
    · split at h
      · simp at h
      · rename_i lf hfind
        rw [Prod.mk.injEq] at h
        obtain ⟨hf, hincs⟩ := h
        have hf' : f = lf := by
          injection hf with h
          exact h.symm
        subst hf'
        subst hincs
        constructor
        · have hperm : List.Perm
              ((List.insertionSort bleR (parsedRecords backups ds pre)).filter
                (fun b => decide (b.type = BackupType.INCREMENTAL) &&
                  lexLt f.timestamp.fieldList b.timestamp.fieldList))
              ((parsedRecords backups ds pre).filter
                (fun b => decide (b.type = BackupType.INCREMENTAL) &&
                  lexLt f.timestamp.fieldList b.timestamp.fieldList)) :=
            (List.perm_insertionSort bleR (parsedRecords backups ds pre)).filter _
          refine hperm.trans ?_
          have hcongr : ∀ l : List BackupInfo, l.filter
              (fun b => decide (b.type = BackupType.INCREMENTAL) &&
                lexLt f.timestamp.fieldList b.timestamp.fieldList) =
              l.filter (fun b => decide (b.type = BackupType.INCREMENTAL ∧
                Datetime.pyLt f.timestamp b.timestamp)) := by
            intro l
            apply List.filter_congr
            intro x _
            cases hlt : lexLt f.timestamp.fieldList x.timestamp.fieldList <;>
              by_cases h1 : x.type = BackupType.INCREMENTAL <;>
              simp [Datetime.pyLt, h1, hlt]
          rw [hcongr]
        · have hpw : (List.insertionSort bleR (parsedRecords backups ds pre)).Pairwise bleR :=
            sorted_sortRecs (parsedRecords backups ds pre)
          have hsub := List.Pairwise.sublist
            (List.filter_sublist (List.insertionSort bleR (parsedRecords backups ds pre))
              (p := fun b => decide (b.type = BackupType.INCREMENTAL) &&
                lexLt f.timestamp.fieldList b.timestamp.fieldList)) hpw
          exact hsub.imp (fun h => h)
  · decide

/-- Witness for C2: the general statement applied to the example listing,
with the chain equation discharged by the example conjunct. -/
theorem chain_incrementals_sorted_witness :
    [exC2inc2Info, exC2inc3Info].Perm ((parsedRecords exC2list "B" "bk").filter
      (fun b => decide (b.type = BackupType.INCREMENTAL ∧
        Datetime.pyLt exC2full1Info.timestamp b.timestamp))) ∧
    [exC2inc2Info, exC2inc3Info].Pairwise (fun a b => Datetime.pyLe a.timestamp b.timestamp) :=
  chain_incrementals_sorted.1 exC2list "B" "bk" exC2full1Info
    [exC2inc2Info, exC2inc3Info] chain_incrementals_sorted.2

/-- C6: a listing entry whose suffix is not exactly `full` or
`incremental`, or whose embedded timestamp does not parse in the fixed
format, contributes no record, and removing it from any position of the
listing does not change the resulting chain — so its presence never
aborts the call. -/
theorem malformed_entries_skipped :
    ∀ (ds pre : String) (e : RcloneFile) (l1 l2 : List RcloneFile),
      suffixBad e.Path = true ∨ tsBad pre e.Path = true →
      parseEntry ds pre e = none ∧
      find_backup_chain (l1 ++ e :: l2) ds pre = find_backup_chain (l1 ++ l2) ds pre := by
  intro ds pre e l1 l2 h
  have hnone : parseEntry ds pre e = none := by
    unfold parseEntry
    split
    · split
      · rfl
      · split
        · rfl
        · split
          · rfl
          · split
            · rfl
            · split
              · rfl
              · exfalso
                rcases h with hsuf | hts
                · simp_all [suffixBad, parseBackupType]
                · simp_all [tsBad]
    · rfl
  refine ⟨hnone, ?_⟩
  have hpr : parsedRecords (l1 ++ e :: l2) ds pre = parsedRecords (l1 ++ l2) ds pre := by
    simp [parsedRecords, List.filterMap_append, List.filterMap_cons, hnone]
  unfold find_backup_chain
  rw [hpr]

/-- Witness for C6: a `garbage`-suffixed entry is skipped and the chain of
a listing containing it equals the chain of the listing without it. -/
theorem malformed_entries_skipped_witness :
    parseEntry "A" "bk" exC6bad = none ∧
    find_backup_chain [exC6good, exC6bad] "A" "bk" = find_backup_chain [exC6good] "A" "bk" :=
  malformed_entries_skipped "A" "bk" exC6bad [exC6good] [] (Or.inl (by decide))

/-- C7: when no listing entry parses as a full record — in particular for
the empty listing or an incremental-only listing — `find_backup_chain`
returns no full record and an empty incremental list. -/
theorem no_full_backup_no_chain :
    ∀ (backups : List RcloneFile) (ds pre : String),
      (∀ r ∈ parsedRecords backups ds pre, r.type ≠ BackupType.FULL) →
      find_backup_chain backups ds pre = (none, []) := by
  intro backups ds pre h
  unfold find_backup_chain
  cases hemp : (parsedRecords backups ds pre).isEmpty with
  | true => simp [hemp]
  | false =>
    simp only [hemp, Bool.false_eq_true, if_false]
    have hfind : (List.insertionSort bleR (parsedRecords backups ds pre)).reverse.find?
        isFullRec = none := by
      apply List.find?_eq_none.mpr
      intro x hx
      rw [List.mem_reverse] at hx
      have hmem := (List.mem_insertionSort bleR).mp hx
      have hne := h x hmem
      simp [isFullRec, hne]
    simp only [hfind]

/-- Witness for C7: the empty listing and an incremental-only listing both
yield the empty chain. -/
theorem no_full_backup_no_chain_witness :
    find_backup_chain [] "A" "bk" = (none, []) ∧
    find_backup_chain [exC7inc] "A" "bk" = (none, []) :=
  ⟨no_full_backup_no_chain [] "A" "bk" (by decide),
   no_full_backup_no_chain [exC7inc] "A" "bk" (by decide)⟩

/-! ## Claims about the snapshot lifecycle -/

/-- Each loop iteration records exactly one deletion attempt, so a run of
the retry loop never records more attempts than it has indices. -/
theorem destroyLoop_attempts_le (run : Nat → Option String) (silent : Bool) (delay : Nat) :
    ∀ idxs : List Nat,
      ((destroyLoop run silent delay idxs).filter isAttemptEv).length ≤ idxs.length := by
  intro idxs
  induction idxs with
  | nil => simp [destroyLoop]
  | cons i rest ih =>
    simp only [destroyLoop]
    cases hr : run i with
    | none => cases silent <;> simp [isAttemptEv]
    | some err =>
      dsimp only
      by_cases hc : containsBusy err = true ∧ rest ≠ []
      · rw [if_pos hc]
        cases silent <;>
          simp only [List.filter_cons, List.filter_append, isAttemptEv, List.length_cons,
            List.length_append, List.filter_nil, if_true, if_false, List.length_nil] <;>
          simp [isAttemptEv] <;> omega
      · rw [if_neg hc]
        cases silent <;> simp [isAttemptEv]

/-- C3: against a backend that always fails with the busy condition,
`destroy_snapshot` performs exactly five deletion attempts with one fixed
2-second sleep between consecutive attempts, and then returns its trace
normally (the function is total: every `CalledProcessError` is caught);
moreover no backend whatsoever can make it perform more than five
attempts — non-busy failures and retry exhaustion just end the loop. -/
theorem destroy_busy_retries :
    ∀ (run : Nat → Option String) (n : String) (silent : Bool),
      n ≠ "" →
      (∀ i, ∃ e, run i = some e ∧ containsBusy e = true) →
      (destroy_snapshot run (some n) silent).filter isAttemptOrSleepEv =
        [DEvent.attempt 0, DEvent.sleep 2, DEvent.attempt 1, DEvent.sleep 2,
         DEvent.attempt 2, DEvent.sleep 2, DEvent.attempt 3, DEvent.sleep 2,
         DEvent.attempt 4] ∧
      (∀ (run2 : Nat → Option String) (sn : Option String) (sil : Bool),
        ((destroy_snapshot run2 sn sil).filter isAttemptEv).length ≤ 5) := by
  intro run n silent hn hbusy
  constructor
  · obtain ⟨e0, hr0, hb0⟩ := hbusy 0
    obtain ⟨e1, hr1, hb1⟩ := hbusy 1
    obtain ⟨e2, hr2, hb2⟩ := hbusy 2
    obtain ⟨e3, hr3, hb3⟩ := hbusy 3
    obtain ⟨e4, hr4, hb4⟩ := hbusy 4
    have hrange : List.range 5 = [0, 1, 2, 3, 4] := rfl
    cases silent <;>
      simp [destroy_snapshot, hn, hrange, destroyLoop, hr0, hb0, hr1, hb1, hr2, hb2,
        hr3, hb3, hr4, hb4, isAttemptOrSleepEv]
  · intro run2 sn sil
    cases sn with
    | none => simp [destroy_snapshot]
    | some n2 =>
      by_cases hn2 : n2 = ""
      · simp [destroy_snapshot, hn2]
      · have hb := destroyLoop_attempts_le run2 sil 2 (List.range 5)
        simp only [List.length_range] at hb
        cases sil <;>
          simpa [destroy_snapshot, hn2, isAttemptEv] using hb

/-- Witness for C3: an always-busy backend yields the 5-attempt trace with
2-second sleeps in between. -/
theorem destroy_busy_retries_witness :
    (destroy_snapshot (fun _ => some "cannot destroy snapshot: dataset is busy")
        (some "tank/data@bk2024") false).filter isAttemptOrSleepEv =
      [DEvent.attempt 0, DEvent.sleep 2, DEvent.attempt 1, DEvent.sleep 2,
       DEvent.attempt 2, DEvent.sleep 2, DEvent.attempt 3, DEvent.sleep 2,
       DEvent.attempt 4] ∧
    (∀ (run2 : Nat → Option String) (sn : Option String) (sil : Bool),
      ((destroy_snapshot run2 sn sil).filter isAttemptEv).length ≤ 5) :=
  destroy_busy_retries (fun _ => some "cannot destroy snapshot: dataset is busy")
    "tank/data@bk2024" false (by decide)
    (fun _ => ⟨"cannot destroy snapshot: dataset is busy", rfl, by decide⟩)

/-- C4: pruning an ordered (oldest-first) snapshot list of length `n` with
retention `r` destroys exactly the oldest `n - r` snapshots and leaves the
newest `r` untouched when `0 < r < n`, and destroys nothing when `r ≤ 0`
(or when the list is not longer than the retention). -/
theorem prune_oldest_only :
    ∀ (r : Int) (l : List String),
      (r ≤ 0 → prune_snapshots r l = []) ∧
      (0 < r → (l.length : Int) ≤ r → prune_snapshots r l = []) ∧
      (0 < r → r < (l.length : Int) →
        prune_snapshots r l = l.take (l.length - r.toNat) ∧
        prune_snapshots r l ++ l.drop (l.length - r.toNat) = l ∧
        ((l.drop (l.length - r.toNat)).length : Int) = r) := by
  intro r l
  refine ⟨?_, ?_, ?_⟩
  · intro h
    simp [prune_snapshots, h]
  · intro h1 h2
    have hr0 : ¬ r ≤ 0 := by omega
    have hlen : ¬ r < (l.length : Int) := by omega
    simp [prune_snapshots, hr0, hlen]
  · intro h1 h2
    have hr0 : ¬ r ≤ 0 := by omega
    have htake : prune_snapshots r l = l.take (l.length - r.toNat) := by
      simp [prune_snapshots, hr0, h2]
    refine ⟨htake, ?_, ?_⟩
    · rw [htake]
      exact List.take_append_drop _ l
    · rw [List.length_drop]
      omega

/-- Witness for C4: retention 2 on a three-snapshot list destroys exactly
the oldest snapshot; a non-positive retention destroys nothing. -/
theorem prune_oldest_only_witness :
    prune_snapshots 2 ["s1", "s2", "s3"] = ["s1"] ∧
    prune_snapshots (-1) ["s1", "s2", "s3"] = [] := by
  constructor
  · have h := ((prune_oldest_only 2 ["s1", "s2", "s3"]).2.2 (by decide) (by decide)).1
    rw [h]
    rfl
  · exact (prune_oldest_only (-1) ["s1", "s2", "s3"]).1 (by decide)

/-- C5: on the non-interrupted path, a non-zero pipeline exit status makes
the run destroy exactly the snapshot it created and never prune; pruning
happens only on exit status zero. -/
theorem pipeline_failure_cleanup :
    ∀ (snapshots : List String) (forceFull : Bool) (ds pre ts : String) (rc : Int),
      rc ≠ 0 →
      BAction.createSnap (ds ++ "@" ++ pre ++ ts) ∈ main_run snapshots forceFull ds pre ts rc ∧
      BAction.destroySnap (ds ++ "@" ++ pre ++ ts) ∈ main_run snapshots forceFull ds pre ts rc ∧
      BAction.pruneSnaps ∉ main_run snapshots forceFull ds pre ts rc := by
  intro snapshots forceFull ds pre ts rc h
  simp [main_run, h]

/-- Witness for C5: a failing pipeline (exit status 1) destroys the newly
created snapshot and performs no pruning. -/
theorem pipeline_failure_cleanup_witness :
    BAction.createSnap "d@pt2" ∈ main_run ["d@p1"] false "d" "p" "t2" 1 ∧
    BAction.destroySnap "d@pt2" ∈ main_run ["d@p1"] false "d" "p" "t2" 1 ∧
    BAction.pruneSnaps ∉ main_run ["d@p1"] false "d" "p" "t2" 1 :=
  pipeline_failure_cleanup ["d@p1"] false "d" "p" "t2" 1 (by decide)

/-- C10: called with an absent (`None`) or empty snapshot name,
`destroy_snapshot` returns at once with an empty trace: no deletion
attempt, no sleep, no log output — in particular the interrupt-cleanup
call for a backup that never created its snapshot deletes nothing. -/
theorem destroy_noop_without_name :
    ∀ (run : Nat → Option String) (silent : Bool),
      destroy_snapshot run none silent = [] ∧ destroy_snapshot run (some "") silent = [] := by
  intro run silent
  exact ⟨rfl, rfl⟩

/-! ## Claims about the timestamp format -/

theorem digitChar_isDigit : ∀ n < 10, (digitChar n).isDigit = true := by decide

theorem digitChar_toNat : ∀ n < 10, (digitChar n).toNat = 48 + n := by decide

theorem takeDigits_succ_digit (k : Nat) (c : Char) (cs : List Char) (h : c.isDigit = true) :
    takeDigits (k + 1) (c :: cs) = (c :: (takeDigits k cs).1, (takeDigits k cs).2) := by
  simp [takeDigits, h]

theorem takeDigits_two (c1 c2 : Char) (rest : List Char) (h1 : c1.isDigit = true)
    (h2 : c2.isDigit = true) : takeDigits 2 (c1 :: c2 :: rest) = ([c1, c2], rest) := by
  show takeDigits (0 + 1 + 1) (c1 :: c2 :: rest) = ([c1, c2], rest)
  rw [takeDigits_succ_digit _ _ _ h1, takeDigits_succ_digit _ _ _ h2]
  rfl

theorem takeDigits_four (c1 c2 c3 c4 : Char) (rest : List Char) (h1 : c1.isDigit = true)
    (h2 : c2.isDigit = true) (h3 : c3.isDigit = true) (h4 : c4.isDigit = true) :
    takeDigits 4 (c1 :: c2 :: c3 :: c4 :: rest) = ([c1, c2, c3, c4], rest) := by
  show takeDigits (0 + 1 + 1 + 1 + 1) (c1 :: c2 :: c3 :: c4 :: rest) = ([c1, c2, c3, c4], rest)
  rw [takeDigits_succ_digit _ _ _ h1, takeDigits_succ_digit _ _ _ h2,
    takeDigits_succ_digit _ _ _ h3, takeDigits_succ_digit _ _ _ h4]
  rfl

theorem parse12_pad2 (n : Nat) (hn : n ≤ 99) :
    ∀ rest, parse12 (pad2 n ++ rest) = some (n, rest) := by
  intro rest
  have h1 := digitChar_isDigit (n / 10) (by omega)
  have h2 := digitChar_isDigit (n % 10) (by omega)
  have t1 := digitChar_toNat (n / 10) (by omega)
  have t2 := digitChar_toNat (n % 10) (by omega)
  simp only [pad2, List.cons_append, List.nil_append]
  simp only [parse12, takeDigits_two _ _ _ h1 h2]
  simp [digitsToNat, t1, t2]
  omega

theorem parse12_pad2_end (n : Nat) (hn : n ≤ 99) : parse12 (pad2 n) = some (n, []) := by
  have h := parse12_pad2 n hn []
  simpa using h

theorem parseFixed_pad4 (n : Nat) (hn : n ≤ 9999) :
    ∀ rest, parseFixed 4 (pad4 n ++ rest) = some (n, rest) := by
  intro rest
  have h1 := digitChar_isDigit (n / 1000) (by omega)
  have h2 := digitChar_isDigit (n / 100 % 10) (by omega)
  have h3 := digitChar_isDigit (n / 10 % 10) (by omega)
  have h4 := digitChar_isDigit (n % 10) (by omega)
  have t1 := digitChar_toNat (n / 1000) (by omega)
  have t2 := digitChar_toNat (n / 100 % 10) (by omega)
  have t3 := digitChar_toNat (n / 10 % 10) (by omega)
  have t4 := digitChar_toNat (n % 10) (by omega)
  simp only [pad4, List.cons_append, List.nil_append]
  simp only [parseFixed, takeDigits_four _ _ _ _ _ h1 h2 h3 h4]
  simp [digitsToNat, t1, t2, t3, t4]
  omega

theorem expectChar_cons (c : Char) (cs : List Char) : expectChar c (c :: cs) = some cs := by
  simp [expectChar]

/-- C8 counterexample: formatting drops the microsecond field, so a valid
datetime with a nonzero microsecond does not survive the round trip — the
claim is false for such timestamps. -/
theorem ts_roundtrip_counterexample :
    validDatetime ⟨2024, 1, 2, 3, 4, 5, 1⟩ ∧
    strptime_ts (strftime_ts ⟨2024, 1, 2, 3, 4, 5, 1⟩) ≠ some ⟨2024, 1, 2, 3, 4, 5, 1⟩ := by
  constructor
  · decide
  · decide

/-- C8 (amended): for every valid timestamp whose sub-second (microsecond)
component is zero — which is all the format can represent — formatting with
`%Y-%m-%d_%H-%M-%S` and re-parsing yields the identical timestamp. -/
theorem ts_format_parse_roundtrip :
    ∀ d : Datetime, validDatetime d → d.microsecond = 0 →
      strptime_ts (strftime_ts d) = some d := by
  intro d hv hm
  obtain ⟨h1, h2, h3, h4, h5, h6, h7, h8, h9, _⟩ := hv
  have hdm : daysInMonth d.year d.month ≤ 31 := by
    unfold daysInMonth
    split
    · split <;> omega
    · split <;> omega
  have hmob : d.month ≤ 99 := by omega
  have hdab : d.day ≤ 99 := by omega
  have hhb : d.hour ≤ 99 := by omega
  have hmib : d.minute ≤ 99 := by omega
  have hssb : d.second ≤ 99 := by omega
  simp only [strftime_ts, strptime_ts, String.toList]
  simp only [parseFixed_pad4 d.year h2, expectChar_cons, parse12_pad2 d.month hmob,
    parse12_pad2 d.day hdab, parse12_pad2 d.hour hhb, parse12_pad2 d.minute hmib,
    parse12_pad2_end d.second hssb, Option.bind_eq_bind, Option.some_bind]
  simp only [mkDatetime, if_true]
  have hcond : 1 ≤ d.year ∧ d.year ≤ 9999 ∧ 1 ≤ d.month ∧ d.month ≤ 12 ∧ 1 ≤ d.day ∧
      d.day ≤ daysInMonth d.year d.month ∧ d.hour ≤ 23 ∧ d.minute ≤ 59 ∧ d.second ≤ 59 :=
    ⟨h1, h2, h3, h4, h5, h6, h7, h8, h9⟩
  rw [← hm]
  split
  · rfl
  · rename_i hno
    exact absurd hcond hno

/-- Witness for C8 (amended): a concrete whole-second timestamp
round-trips to itself. -/
theorem ts_format_parse_roundtrip_witness :
    strptime_ts (strftime_ts ⟨2024, 1, 2, 3, 4, 5, 0⟩) = some ⟨2024, 1, 2, 3, 4, 5, 0⟩ :=
  ts_format_parse_roundtrip ⟨2024, 1, 2, 3, 4, 5, 0⟩ (by decide) rfl

/-! ## Claim about the compressor registry -/

/-- C9: because the dict comprehension keeps only the last compressor
registered per extension and pigz registers `gz` after gzip,
`get_compressor_by_filename` answers pigz (whose decompress command is
`pigz -d`) for every filename ending in `.gz`, and never answers the gzip
entry for any filename. -/
theorem gz_lookup_is_pigz :
    (∀ f : String, (".gz".toList).isSuffixOf f.toList = true →
      get_compressor_by_filename f = some pigzCompressor) ∧
    (∀ f : String, get_compressor_by_filename f ≠ some gzipCompressor) := by
  have hbe : byExtension = [("gz", pigzCompressor), ("zst", zstdCompressor)] := by decide
  constructor
  · intro f hf
    have hf' : (("." ++ "gz" : String).toList).isSuffixOf f.toList = true := hf
    have h1' : (fun p : String × Compressor => (("." ++ p.1).toList).isSuffixOf f.toList)
        ("gz", pigzCompressor) = true := hf'
    show (List.find? (fun p => (("." ++ p.1).toList).isSuffixOf f.toList) byExtension).map
      Prod.snd = some pigzCompressor
    rw [hbe, @List.find?_cons_of_pos (String × Compressor)
      (fun p => (("." ++ p.1).toList).isSuffixOf f.toList) ("gz", pigzCompressor)
      [("zst", zstdCompressor)] h1']
    rfl
  · intro f
    simp only [get_compressor_by_filename, hbe]
    cases h1 : (("." ++ "gz" : String).toList).isSuffixOf f.toList with
    | true =>
      have h1' : (fun p : String × Compressor => (("." ++ p.1).toList).isSuffixOf f.toList)
          ("gz", pigzCompressor) = true := h1
      rw [@List.find?_cons_of_pos (String × Compressor)
        (fun p => (("." ++ p.1).toList).isSuffixOf f.toList) ("gz", pigzCompressor)
        [("zst", zstdCompressor)] h1']
      decide
    | false =>
      have h1n : ¬ (fun p : String × Compressor => (("." ++ p.1).toList).isSuffixOf f.toList)
          ("gz", pigzCompressor) = true := by
        intro hc
        have hc' : (("." ++ "gz" : String).toList).isSuffixOf f.toList = true := hc
        rw [h1] at hc'
        exact Bool.noConfusion hc'
      rw [@List.find?_cons_of_neg (String × Compressor)
        (fun p => (("." ++ p.1).toList).isSuffixOf f.toList) ("gz", pigzCompressor)
        [("zst", zstdCompressor)] h1n]
      cases h2 : (("." ++ "zst" : String).toList).isSuffixOf f.toList with
      | true =>
        have h2' : (fun p : String × Compressor => (("." ++ p.1).toList).isSuffixOf f.toList)
            ("zst", zstdCompressor) = true := h2
        rw [@List.find?_cons_of_pos (String × Compressor)
          (fun p => (("." ++ p.1).toList).isSuffixOf f.toList) ("zst", zstdCompressor) [] h2']
        decide
      | false =>
        have h2n : ¬ (fun p : String × Compressor => (("." ++ p.1).toList).isSuffixOf f.toList)
            ("zst", zstdCompressor) = true := by
          intro hc
          have hc' : (("." ++ "zst" : String).toList).isSuffixOf f.toList = true := hc
          rw [h2] at hc'
          exact Bool.noConfusion hc'
        rw [@List.find?_cons_of_neg (String × Compressor)
          (fun p => (("." ++ p.1).toList).isSuffixOf f.toList) ("zst", zstdCompressor) [] h2n]
        simp

/-- Witness for C9: a gzip-produced backup object name resolves to the
pigz entry, never to the gzip entry. -/
theorem gz_lookup_is_pigz_witness :
    get_compressor_by_filename "A@bk2024-01-01_00-00-01-full.gz" = some pigzCompressor ∧
    get_compressor_by_filename "A@bk2024-01-01_00-00-01-full.gz" ≠ some gzipCompressor :=
  ⟨gz_lookup_is_pigz.1 _ (by decide), gz_lookup_is_pigz.2 _⟩
